import Mathlib

/-!
Verification development for the WSDM'21 DGL hands-on tutorial repository.

The repository consists of three Jupyter notebooks (node classification with a
GCN, writing GNN modules for stochastic training, stochastic link-prediction
training) plus a tutorial abstract.  The development below gives a shallow
embedding of the code the notebooks author themselves:

* feature tensors are modelled as functions `ℕ → ℕ → ℚ` (row index, column
  index), so tensor arithmetic is exact rational arithmetic;
* DGL graphs carry dictionary-like feature stores (`ndata`, `edata`,
  `srcdata`, `dstdata`) modelled as association lists from keys to features;
* the DGL builtins the notebooks invoke (`update_all` with
  `fn.copy_u`/`fn.mean`, `apply_edges` with `fn.u_dot_v`, `local_scope`) are
  modelled from their documented behaviour, since the library itself is the
  external dependency being demonstrated;
* external optimizers (`Adam`, `LBFGS`) and loss primitives are abstract
  parameters: the notebooks only invoke them, so every theorem quantifies
  over their behaviour;
* the control structure of the notebook cells (which statements they run,
  which library they call into, whether a statement writes a file, branches,
  breaks or handles exceptions) is embedded as a small statement syntax, one
  value per cell, translated statement by statement from the notebooks.
-/

/-! ## Rational vectors, features, and feature stores -/

/-- A dense vector with rational entries, indexed by coordinate. -/
def Vecq : Type := ℕ → ℚ

/-- A feature tensor: row index (node or edge id) to coordinate to value. -/
def Feat : Type := ℕ → ℕ → ℚ

/-- The all-zero feature tensor (default for absent dictionary keys). -/
def zeroFeat : Feat := fun _ _ => 0

/-- Keys of the dictionary-like feature stores used by the notebooks. -/
inductive FKey where
  | kh
  | khN
  | kscore
  | kfeat
  | klabel
  | kx
  | km
deriving DecidableEq

/-- A feature store (`ndata` / `edata` / `srcdata` / `dstdata`): an
association list from keys to feature tensors. -/
def Store : Type := List (FKey × Feat)

/-- Write a feature into a store under a key. -/
def storeSet (s : Store) (k : FKey) (f : Feat) : Store := (k, f) :: s

/-- Read a feature from a store; absent keys read as zero. -/
def storeGet (s : Store) (k : FKey) : Feat :=
  match s with
  | [] => zeroFeat
  | (k2, f) :: rest => if k2 = k then f else storeGet rest k

/-! ## Graphs and the DGL message-passing builtins the notebooks call -/

/-- A message flow graph (MFG): a directional bipartite graph produced by the
DGL sampler, with source nodes, destination nodes, and directed edges from
source indices to destination indices. -/
structure MFG where
  numSrc : ℕ
  numDst : ℕ
  edges : List (ℕ × ℕ)

/-- A homogeneous DGL graph (full-graph code path). -/
structure HGraph where
  numNodes : ℕ
  edges : List (ℕ × ℕ)

/-- The per-destination message list produced by the builtin message function
`fn.copy_u`: one copy of the source feature for every in-edge of `v`,
in edge order. -/
def inMessages (edges : List (ℕ × ℕ)) (hsrc : Feat) (v : ℕ) : List Vecq :=
  edges.filterMap (fun e => if e.2 = v then some (hsrc e.1) else none)

/-- The builtin reduce function `fn.mean`: coordinate-wise arithmetic mean of
a list of vectors.  DGL fills the result with zeros for destination nodes
that receive no message, which the rational convention `0 / 0 = 0` mirrors
exactly. -/
def meanVec (l : List Vecq) : Vecq :=
  fun j => (l.map (fun w => w j)).sum / (l.length : ℚ)

/-- The DGL builtin combination `g.update_all(fn.copy_u(h, m), fn.mean(m, h_N))`:
for every destination node, the mean of the source features over its
in-edges. -/
def updateAllCopyUMean (edges : List (ℕ × ℕ)) (hsrc : Feat) : Feat :=
  fun v => meanVec (inMessages edges hsrc v)

/-- In-degree of a destination node: the number of edges into `v`. -/
def inDeg (edges : List (ℕ × ℕ)) (v : ℕ) : ℕ :=
  (edges.filter (fun e => decide (e.2 = v))).length

/-- Sum of the source features over the edges into `v`, one summand per
edge (multi-edges contribute once per edge). -/
def inSum (edges : List (ℕ × ℕ)) (hsrc : Feat) (v : ℕ) : Vecq :=
  fun j => ((edges.filter (fun e => decide (e.2 = v))).map (fun e => hsrc e.1 j)).sum

/-! ## The linear layer and the repository's SAGEConv modules -/

/-- An `nn.Linear` module: weight matrix, bias, and input width. -/
structure LinearMod where
  inDim : ℕ
  w : ℕ → ℕ → ℚ
  b : ℕ → ℚ

/-- Apply a linear module to a vector: `W x + b`. -/
def LinearMod.applyLin (m : LinearMod) (x : Vecq) : Vecq :=
  fun j => (∑ i ∈ Finset.range m.inDim, m.w j i * x i) + m.b j

/-- Concatenation of two vectors along the feature dimension
(`torch.cat([x, y], dim=1)` row-wise), where `x` has width `d`. -/
def vconcat (d : ℕ) (x y : Vecq) : Vecq :=
  fun j => if j < d then x j else y (j - d)

/-- The repository's SAGEConv module state: the input feature width and the
single linear submodule `nn.Linear(in_feat * 2, out_feat)`. -/
structure SAGEConvM where
  inFeat : ℕ
  linear : LinearMod

/-- The feature stores of an MFG (`srcdata`, `dstdata`, `edata`). -/
structure MFGData where
  srcdata : Store
  dstdata : Store
  edata : Store

/-- The feature stores of a homogeneous graph (`ndata`, `edata`).  On a
homogeneous graph, `srcdata` and `dstdata` are aliases of `ndata`. -/
structure HData where
  ndata : Store
  edata : Store

/-- The stochastic `SAGEConv.forward(g, (h_src, h_dst))` of the
message-passing notebook, translated statement by statement.  All feature
writes happen inside `g.local_scope()`: they act on a local copy of the
stores, and the graph's persistent stores are returned unchanged. -/
def SAGEConvM.forwardStoch (c : SAGEConvM) (g : MFG) (st : MFGData)
    (h : Feat × Feat) : Feat × MFGData :=
  let hsrc := h.1
  let hdst := h.2
  let loc1 : MFGData := { st with srcdata := storeSet st.srcdata FKey.kh hsrc }
  let loc2 : MFGData := { loc1 with dstdata := storeSet loc1.dstdata FKey.kh hdst }
  let agg := updateAllCopyUMean g.edges (storeGet loc2.srcdata FKey.kh)
  let loc3 : MFGData := { loc2 with dstdata := storeSet loc2.dstdata FKey.khN agg }
  let hN := storeGet loc3.dstdata FKey.khN
  let htotal := fun v => vconcat c.inFeat (hdst v) (hN v)
  ((fun v => c.linear.applyLin (htotal v)), st)

/-- The full-graph-only `SAGEConv.forward(g, h)` of the message-passing
notebook: assigns `g.ndata` and concatenates `h` with the aggregated
neighbour feature. -/
def SAGEConvM.forwardFull (c : SAGEConvM) (g : HGraph) (st : HData)
    (h : Feat) : Feat × HData :=
  let loc1 : HData := { st with ndata := storeSet st.ndata FKey.kh h }
  let agg := updateAllCopyUMean g.edges (storeGet loc1.ndata FKey.kh)
  let loc2 : HData := { loc1 with ndata := storeSet loc1.ndata FKey.khN agg }
  let hN := storeGet loc2.ndata FKey.khN
  let htotal := fun v => vconcat c.inFeat (h v) (hN v)
  ((fun v => c.linear.applyLin (htotal v)), st)

/-- The input of `SAGEConvForBoth.forward`: a single tensor or a pair,
mirroring the `isinstance(h, tuple)` test. -/
inductive TensorOrPair where
  | single (h : Feat)
  | pair (hsrc hdst : Feat)

/-- `SAGEConvForBoth.forward(g, h)` on a homogeneous graph, where `srcdata`
and `dstdata` are aliases of `ndata`: unpacks a tuple input or duplicates a
single-tensor input, assigns `srcdata`, runs `update_all`, reads `h_N` back
from `ndata`, concatenates with `h_dst` and applies the linear module. -/
def SAGEConvM.forwardBoth (c : SAGEConvM) (g : HGraph) (st : HData)
    (h : TensorOrPair) : Feat × HData :=
  let hp : Feat × Feat :=
    match h with
    | TensorOrPair.pair a b => (a, b)
    | TensorOrPair.single x => (x, x)
  let hsrc := hp.1
  let hdst := hp.2
  let loc1 : HData := { st with ndata := storeSet st.ndata FKey.kh hsrc }
  let agg := updateAllCopyUMean g.edges (storeGet loc1.ndata FKey.kh)
  let loc2 : HData := { loc1 with ndata := storeSet loc1.ndata FKey.khN agg }
  let hN := storeGet loc2.ndata FKey.khN
  let htotal := fun v => vconcat c.inFeat (hdst v) (hN v)
  ((fun v => c.linear.applyLin (htotal v)), st)

/-! ## The DotPredictor module -/

/-- The DGL builtin `g.apply_edges(fn.u_dot_v(h, h, score))`: for the `k`-th
edge `(u, v)` of the graph, a one-element feature holding the dot product of
the source and destination features over `dim` coordinates. -/
def applyEdgesUDotV (dim : ℕ) (g : HGraph) (hs hd : Feat) : Feat :=
  fun k j =>
    match g.edges.get? k with
    | some e => if j = 0 then ∑ i ∈ Finset.range dim, hs e.1 i * hd e.2 i else 0
    | none => 0

/-- `DotPredictor.forward(g, h)` translated statement by statement: inside
`g.local_scope()` it writes `ndata` and `edata`, and it returns the per-edge
scores with the persistent stores unchanged. -/
def dotPredictorForward (dim : ℕ) (g : HGraph) (st : HData) (h : Feat) :
    (ℕ → ℚ) × HData :=
  let loc1 : HData := { st with ndata := storeSet st.ndata FKey.kh h }
  let scores := applyEdgesUDotV dim g (storeGet loc1.ndata FKey.kh)
    (storeGet loc1.ndata FKey.kh)
  let loc2 : HData := { loc1 with edata := storeSet loc1.edata FKey.kscore scores }
  ((fun k => storeGet loc2.edata FKey.kscore k 0), st)

/-! ## The linear-probe evaluation routine of the link-prediction notebook

`evaluate(emb, label, train_nids, valid_nids, test_nids)` constructs an
`nn.Linear` classifier, fits it with `torch.optim.LBFGS` on the training
rows, and reports sklearn accuracies on the validation and test rows.  The
optimizer and the loss primitive live in the external libraries, so they are
abstract parameters here: `step` is one `opt.step(closure)` call (it sees the
current optimizer state and the loss function the closure computes), and
`ce` is `F.cross_entropy` on a batch of predicted rows against a label
column. -/

/-- First index of the maximum entry among coordinates `0, …, n-1`
(`argmax(1)` of numpy and torch: ties resolve to the earliest index). -/
def argmaxIdx (n : ℕ) (v : Vecq) : ℕ :=
  (List.range n).foldl (fun best i => if v best < v i then i else best) 0

/-- `sklearn.metrics.accuracy_score`: the fraction of positions where the
prediction equals the label. -/
def accuracyScore (y : List ℕ) (yp : List ℕ) : ℚ :=
  (((y.zip yp).filter (fun p => decide (p.1 = p.2))).length : ℚ) / (y.length : ℚ)

/-- The convergence loop of `evaluate`: up to 1000 iterations, each calling
`opt.step(closure)` and then re-evaluating the loss without gradients;
the loop exits early when the loss moved by less than `1e-4` since the
previous iteration (`prev_loss` starts at infinity, modelled by `none`). -/
def lbfgsRun {α : Type} (step : LinearMod × α → (LinearMod → ℚ) → LinearMod × α)
    (lossFn : LinearMod → ℚ) :
    ℕ → LinearMod × α → Option ℚ → LinearMod × α
  | 0, s, _ => s
  | n + 1, s, prev =>
    let s1 := step s lossFn
    let l := lossFn s1.1
    match prev with
    | some pl =>
      if |l - pl| < 1 / 10000 then s1 else lbfgsRun step lossFn n s1 (some l)
    | none => lbfgsRun step lossFn n s1 (some l)

/-- The classifier that `evaluate` fits: it sees only the embedding rows and
the labels of the training nodes (the arguments of this definition), plus the
externally owned optimizer behaviour and initial parameters. -/
def fitClassifier {α : Type}
    (step : LinearMod × α → (LinearMod → ℚ) → LinearMod × α)
    (ce : List Vecq → List ℕ → ℚ) (init : LinearMod × α)
    (trainEmbRows : List Vecq) (trainLabs : List ℕ) : LinearMod :=
  (lbfgsRun step (fun c => ce (trainEmbRows.map (fun r => c.applyLin r)) trainLabs)
    1000 init none).1

/-- `evaluate(emb, label, train_nids, valid_nids, test_nids)`, translated
statement by statement.  `compute_loss` reads `emb[train_nids]` and
`label[train_nids]`; after the LBFGS loop the fitted classifier predicts all
rows and sklearn accuracies are taken over the validation and test index
lists. -/
def evaluateProbe {α : Type}
    (step : LinearMod × α → (LinearMod → ℚ) → LinearMod × α)
    (ce : List Vecq → List ℕ → ℚ) (init : LinearMod × α)
    (emb : Feat) (label : ℕ → ℕ) (nclass : ℕ)
    (trainNids validNids testNids : List ℕ) : ℚ × ℚ :=
  let computeLoss := fun c : LinearMod =>
    ce (trainNids.map (fun i => c.applyLin (emb i))) (trainNids.map label)
  let classifier := (lbfgsRun step computeLoss 1000 init none).1
  let pred := fun i => classifier.applyLin (emb i)
  let validAcc := accuracyScore (validNids.map label)
    (validNids.map (fun i => argmaxIdx nclass (pred i)))
  let testAcc := accuracyScore (testNids.map label)
    (testNids.map (fun i => argmaxIdx nclass (pred i)))
  (validAcc, testAcc)

/-! ## The node-classification training loop `train(g, model)`

The loop body’s numeric content (the model forward, cross entropy, Adam) is
external; what the repository authors is the control structure: 100 epochs,
loss over the `train_mask` rows, the `zero_grad` / `backward` / `step`
sequence, the best-accuracy bookkeeping, and a print every 5 epochs.  The
embedding emits one event per executed statement; the per-epoch validation
and test accuracies are abstract inputs. -/

/-- Node masks of the Cora graph used to select rows. -/
inductive MaskName where
  | trainMask
  | valMask
  | testMask
deriving DecidableEq

/-- One event per statement executed inside the body of `train`. -/
inductive TEvent where
  | forwardPass
  | predCompute
  | lossOn (m : MaskName)
  | accOn (m : MaskName)
  | bestUpdate
  | zeroGrad
  | backwardPass
  | optimStep
  | printed
deriving DecidableEq

/-- The best-accuracy update of `train`: replace `(best_val, best_test)` by
the epoch's `(val_acc, test_acc)` exactly when `best_val_acc < val_acc`. -/
def trainStepState (best : ℚ × ℚ) (acc : ℚ × ℚ) : ℚ × ℚ :=
  if best.1 < acc.1 then acc else best

/-- The events of one epoch `e` of `train`, in statement order, given the
best pair entering the epoch and the epoch's `(val_acc, test_acc)`. -/
def trainEpochEvents (e : ℕ) (best : ℚ × ℚ) (acc : ℚ × ℚ) : List TEvent :=
  [TEvent.forwardPass, TEvent.predCompute, TEvent.lossOn MaskName.trainMask,
    TEvent.accOn MaskName.trainMask, TEvent.accOn MaskName.valMask,
    TEvent.accOn MaskName.testMask]
  ++ (if best.1 < acc.1 then [TEvent.bestUpdate] else [])
  ++ [TEvent.zeroGrad, TEvent.backwardPass, TEvent.optimStep]
  ++ (if e % 5 = 0 then [TEvent.printed] else [])

/-- The epoch recursion of `train`: thread the best pair through the listed
epochs and collect the emitted events. -/
def trainRunGo (accs : ℕ → ℚ × ℚ) :
    List ℕ → ℚ × ℚ → (ℚ × ℚ) × List TEvent
  | [], best => (best, [])
  | e :: rest, best =>
    let ev := trainEpochEvents e best (accs e)
    let tail := trainRunGo accs rest (trainStepState best (accs e))
    (tail.1, ev ++ tail.2)

/-- `train(g, model)`: `for e in range(100)` starting from
`best_val_acc = best_test_acc = 0`. -/
def trainRun (accs : ℕ → ℚ × ℚ) : (ℚ × ℚ) × List TEvent :=
  trainRunGo accs (List.range 100) (0, 0)

/-- Recognizer for the three optimizer invocations of an epoch. -/
def isOptimEvent : TEvent → Bool
  | TEvent.zeroGrad => true
  | TEvent.backwardPass => true
  | TEvent.optimStep => true
  | _ => false

/-- Every loss computation uses the training mask. -/
def lossOnlyTrainMask : TEvent → Bool
  | TEvent.lossOn m => decide (m = MaskName.trainMask)
  | _ => true

/-! ## The link-prediction training loop's checkpointing state

Per evaluation step the loop computes a validation accuracy, and saves the
model to `best_model_path` exactly when `best_accuracy < valid_acc`,
starting from `best_accuracy = 0`.  The fold records which step indices
overwrote the file. -/

/-- The checkpointing recursion: step counter, current `best_accuracy`, and
the indices of the steps that called `torch.save`. -/
def lpGo : List ℚ → ℕ → ℚ → List ℕ → ℚ × List ℕ
  | [], _, best, saved => (best, saved)
  | v :: rest, k, best, saved =>
    if best < v then lpGo rest (k + 1) v (saved ++ [k])
    else lpGo rest (k + 1) best saved

/-- The checkpointing state of the link-prediction training loop over a
sequence of computed validation accuracies. -/
def lpFold (accs : List ℚ) : ℚ × List ℕ :=
  lpGo accs 0 0 []

/-! ## Statement-level syntax of the notebook code

Each code cell of the three notebooks is translated, statement by statement,
into a small statement syntax.  A statement records only what the structural
claims need: which external library a call targets, whether the call writes a
file (`torch.save` is the only such call in the repository), store reads and
writes, branching, loops, `with` blocks, `break`, `return`, and `def` /
`class` definitions (with a flag recording whether a class subclasses an
exception type). -/

/-- The external libraries the notebooks call into. -/
inductive LibName where
  | dgl
  | torch
  | ogb
  | sklearnLib
  | numpyLib
  | tqdmLib
  | matplotlibLib
deriving DecidableEq

/-- One Python statement of a notebook cell. -/
inductive PyStmt where
  | importLib (l : LibName)
  | assignPure
  | storeRead
  | storeWrite
  | libCall (l : LibName) (writesFile : Bool)
  | repoCall
  | printCall
  | forRange (body : List PyStmt)
  | ifBranch (thn els : List PyStmt)
  | withBlock (body : List PyStmt)
  | tryBlock (body handlers : List PyStmt)
  | raiseStmt
  | breakStmt
  | returnStmt
  | defFun (body : List PyStmt)
  | defClass (isExceptionSub : Bool) (body : List PyStmt)

mutual
/-- Does `p` hold of the statement or of any statement nested inside it? -/
def stmtAny (p : PyStmt → Bool) : PyStmt → Bool
  | PyStmt.forRange b => p (PyStmt.forRange b) || listAny p b
  | PyStmt.ifBranch t e => p (PyStmt.ifBranch t e) || listAny p t || listAny p e
  | PyStmt.withBlock b => p (PyStmt.withBlock b) || listAny p b
  | PyStmt.tryBlock b h => p (PyStmt.tryBlock b h) || listAny p b || listAny p h
  | PyStmt.defFun b => p (PyStmt.defFun b) || listAny p b
  | PyStmt.defClass ex b => p (PyStmt.defClass ex b) || listAny p b
  | s => p s
/-- Does `p` hold anywhere in a statement list, nested statements included? -/
def listAny (p : PyStmt → Bool) : List PyStmt → Bool
  | [] => false
  | s :: r => stmtAny p s || listAny p r
end

mutual
/-- Number of statements (the statement itself plus all nested statements)
satisfying `p`. -/
def stmtCount (p : PyStmt → Bool) : PyStmt → ℕ
  | PyStmt.forRange b => (if p (PyStmt.forRange b) then 1 else 0) + listCount p b
  | PyStmt.ifBranch t e =>
    (if p (PyStmt.ifBranch t e) then 1 else 0) + listCount p t + listCount p e
  | PyStmt.withBlock b => (if p (PyStmt.withBlock b) then 1 else 0) + listCount p b
  | PyStmt.tryBlock b h =>
    (if p (PyStmt.tryBlock b h) then 1 else 0) + listCount p b + listCount p h
  | PyStmt.defFun b => (if p (PyStmt.defFun b) then 1 else 0) + listCount p b
  | PyStmt.defClass ex b =>
    (if p (PyStmt.defClass ex b) then 1 else 0) + listCount p b
  | s => if p s then 1 else 0
/-- Number of statements in a list satisfying `p`, nested ones included. -/
def listCount (p : PyStmt → Bool) : List PyStmt → ℕ
  | [] => 0
  | s :: r => stmtCount p s + listCount p r
end

/-- A statement that catches exceptions, raises one, or defines a custom
exception class. -/
def isErrorHandling : PyStmt → Bool
  | PyStmt.tryBlock _ _ => true
  | PyStmt.raiseStmt => true
  | PyStmt.defClass true _ => true
  | _ => false

/-- A statement that writes a file. -/
def isFileWrite : PyStmt → Bool
  | PyStmt.libCall _ w => w
  | _ => false

/-- A file-writing statement that is not a call into the torch library. -/
def isNonTorchFileWrite : PyStmt → Bool
  | PyStmt.libCall l w => w && decide (l ≠ LibName.torch)
  | _ => false

/-- Repository-authored control flow beyond straight-line calls: a branch or
an early loop exit. -/
def isBranchOrBreak : PyStmt → Bool
  | PyStmt.ifBranch _ _ => true
  | PyStmt.breakStmt => true
  | _ => false

/-- An explicit Python loop. -/
def isLoopStmt : PyStmt → Bool
  | PyStmt.forRange _ => true
  | _ => false

/-! ## Translation of the node-classification notebook (GCN on Cora)

One definition per class, plus the cell sequence.  Statement order follows
the notebook source. -/

/-- The `GCN` class: `__init__` builds two `dgl.nn.GraphConv` submodules;
`forward` calls `conv1`, `F.relu`, `conv2` and returns. -/
def gcnClassStmt : PyStmt :=
  PyStmt.defClass false
    [PyStmt.defFun
      [PyStmt.libCall LibName.torch false, PyStmt.libCall LibName.dgl false,
        PyStmt.libCall LibName.dgl false],
      PyStmt.defFun
      [PyStmt.libCall LibName.dgl false, PyStmt.libCall LibName.torch false,
        PyStmt.libCall LibName.dgl false, PyStmt.returnStmt]]

/-- The `train(g, model)` function of the node-classification notebook:
Adam construction, best-accuracy initialization, five feature-store reads,
then the 100-epoch loop with forward, argmax, masked cross entropy, three
accuracies, the best-accuracy branch, `zero_grad`, `backward`, `step`, and a
print every fifth epoch. -/
def trainDefStmt : PyStmt :=
  PyStmt.defFun
    [PyStmt.libCall LibName.torch false, PyStmt.assignPure, PyStmt.assignPure,
      PyStmt.storeRead, PyStmt.storeRead, PyStmt.storeRead, PyStmt.storeRead,
      PyStmt.storeRead,
      PyStmt.forRange
        [PyStmt.repoCall, PyStmt.libCall LibName.torch false,
          PyStmt.libCall LibName.torch false, PyStmt.libCall LibName.torch false,
          PyStmt.libCall LibName.torch false, PyStmt.libCall LibName.torch false,
          PyStmt.ifBranch [PyStmt.assignPure, PyStmt.assignPure] [],
          PyStmt.libCall LibName.torch false, PyStmt.libCall LibName.torch false,
          PyStmt.libCall LibName.torch false,
          PyStmt.ifBranch [PyStmt.printCall] []]]

/-- All statements of the node-classification notebook, cell by cell. -/
def part000Code : List PyStmt :=
  [PyStmt.libCall LibName.matplotlibLib false]
  ++ [PyStmt.importLib LibName.dgl, PyStmt.importLib LibName.torch,
    PyStmt.importLib LibName.torch, PyStmt.importLib LibName.torch]
  ++ [PyStmt.importLib LibName.dgl, PyStmt.libCall LibName.dgl false,
    PyStmt.printCall]
  ++ [PyStmt.assignPure]
  ++ [PyStmt.printCall, PyStmt.printCall]
  ++ [PyStmt.printCall, PyStmt.printCall]
  ++ [PyStmt.storeRead]
  ++ [PyStmt.printCall]
  ++ [PyStmt.storeRead]
  ++ [PyStmt.printCall]
  ++ [PyStmt.importLib LibName.dgl, gcnClassStmt, PyStmt.repoCall]
  ++ [trainDefStmt, PyStmt.repoCall, PyStmt.repoCall]
  ++ [PyStmt.printCall, PyStmt.libCall LibName.dgl false, PyStmt.printCall]
  ++ [PyStmt.printCall]
  ++ [PyStmt.repoCall, PyStmt.libCall LibName.torch false, PyStmt.repoCall]

/-! ## Translation of the message-passing notebook -/

/-- The `forward` body of the stochastic `SAGEConv`: a `with g.local_scope()`
block holding the tuple unpacking, the `srcdata` and `dstdata` writes, the
single `update_all` call, the `dstdata` read, `torch.cat`, and the return of
the linear module application. -/
def sageConvStochForwardBody : List PyStmt :=
  [PyStmt.withBlock
    [PyStmt.assignPure, PyStmt.storeWrite, PyStmt.storeWrite,
      PyStmt.libCall LibName.dgl false, PyStmt.storeRead,
      PyStmt.libCall LibName.torch false, PyStmt.returnStmt]]

/-- The stochastic `SAGEConv` class of the message-passing notebook. -/
def sageConvStochClassStmt : PyStmt :=
  PyStmt.defClass false
    [PyStmt.defFun
      [PyStmt.libCall LibName.torch false, PyStmt.libCall LibName.torch false],
      PyStmt.defFun sageConvStochForwardBody]

/-- The two-layer `Model` class of the message-passing notebook: `__init__`
builds two repository `SAGEConv` modules; `forward` slices the destination
features, calls `conv1`, `F.relu`, slices again, calls `conv2`, returns. -/
def modelL4ClassStmt : PyStmt :=
  PyStmt.defClass false
    [PyStmt.defFun
      [PyStmt.libCall LibName.torch false, PyStmt.repoCall, PyStmt.repoCall],
      PyStmt.defFun
      [PyStmt.assignPure, PyStmt.repoCall, PyStmt.libCall LibName.torch false,
        PyStmt.assignPure, PyStmt.repoCall, PyStmt.returnStmt]]

/-- The `forward` body of the full-graph-only `SAGEConv`. -/
def sageConvFullForwardBody : List PyStmt :=
  [PyStmt.withBlock
    [PyStmt.storeWrite, PyStmt.libCall LibName.dgl false, PyStmt.storeRead,
      PyStmt.libCall LibName.torch false, PyStmt.returnStmt]]

/-- The full-graph-only `SAGEConv` class. -/
def sageConvFullClassStmt : PyStmt :=
  PyStmt.defClass false
    [PyStmt.defFun
      [PyStmt.libCall LibName.torch false, PyStmt.libCall LibName.torch false],
      PyStmt.defFun sageConvFullForwardBody]

/-- The `forward` body of `SAGEConvForBoth`: the `isinstance` branch, then
the same single-aggregation body as the stochastic version. -/
def sageConvBothForwardBody : List PyStmt :=
  [PyStmt.withBlock
    [PyStmt.ifBranch [PyStmt.assignPure] [PyStmt.assignPure], PyStmt.storeWrite,
      PyStmt.libCall LibName.dgl false, PyStmt.storeRead,
      PyStmt.libCall LibName.torch false, PyStmt.returnStmt]]

/-- The `SAGEConvForBoth` class. -/
def sageConvBothClassStmt : PyStmt :=
  PyStmt.defClass false
    [PyStmt.defFun
      [PyStmt.libCall LibName.torch false, PyStmt.libCall LibName.torch false],
      PyStmt.defFun sageConvBothForwardBody]

/-- All statements of the message-passing notebook, cell by cell. -/
def l4Code : List PyStmt :=
  [PyStmt.libCall LibName.matplotlibLib false]
  ++ [PyStmt.importLib LibName.dgl, PyStmt.importLib LibName.torch,
    PyStmt.importLib LibName.numpyLib, PyStmt.importLib LibName.ogb,
    PyStmt.libCall LibName.ogb false, PyStmt.assignPure, PyStmt.assignPure,
    PyStmt.libCall LibName.dgl false, PyStmt.storeWrite,
    PyStmt.libCall LibName.ogb false, PyStmt.assignPure, PyStmt.storeRead,
    PyStmt.libCall LibName.dgl false, PyStmt.libCall LibName.dgl false,
    PyStmt.libCall LibName.dgl false]
  ++ [PyStmt.printCall, PyStmt.printCall]
  ++ [PyStmt.printCall]
  ++ [PyStmt.libCall LibName.torch false, PyStmt.storeWrite, PyStmt.storeRead]
  ++ [PyStmt.storeRead, PyStmt.storeRead]
  ++ [PyStmt.printCall]
  ++ [PyStmt.libCall LibName.torch false, PyStmt.storeWrite]
  ++ [PyStmt.importLib LibName.dgl, PyStmt.libCall LibName.dgl false,
    PyStmt.storeRead, PyStmt.assignPure]
  ++ [PyStmt.importLib LibName.torch, PyStmt.importLib LibName.torch,
    PyStmt.importLib LibName.tqdmLib, sageConvStochClassStmt, modelL4ClassStmt,
    PyStmt.libCall LibName.dgl false, PyStmt.libCall LibName.dgl false,
    PyStmt.repoCall, PyStmt.libCall LibName.torch false,
    PyStmt.libCall LibName.tqdmLib false,
    PyStmt.withBlock
      [PyStmt.forRange [PyStmt.storeRead, PyStmt.storeRead, PyStmt.repoCall]]]
  ++ [sageConvFullClassStmt]
  ++ [sageConvBothClassStmt]

/-! ## Translation of the link-prediction notebook -/

/-- The dataset-acquisition cell: load `ogbn-arxiv` through the ogb package,
add reverse edges through dgl, read features and labels, take the index
split. -/
def datasetAcquisitionStmts : List PyStmt :=
  [PyStmt.importLib LibName.dgl, PyStmt.importLib LibName.torch,
    PyStmt.importLib LibName.numpyLib, PyStmt.importLib LibName.ogb,
    PyStmt.libCall LibName.ogb false, PyStmt.assignPure, PyStmt.assignPure,
    PyStmt.libCall LibName.dgl false, PyStmt.printCall, PyStmt.printCall,
    PyStmt.storeRead, PyStmt.assignPure, PyStmt.assignPure,
    PyStmt.libCall LibName.torch false, PyStmt.printCall,
    PyStmt.libCall LibName.ogb false, PyStmt.assignPure, PyStmt.assignPure,
    PyStmt.assignPure]

/-- The sampler-and-dataloader cells: negative sampler, neighbor sampler,
`torch.arange`, `EdgeDataLoader`. -/
def samplerDataloaderStmts : List PyStmt :=
  [PyStmt.libCall LibName.dgl false]
  ++ [PyStmt.libCall LibName.dgl false, PyStmt.libCall LibName.torch false,
    PyStmt.libCall LibName.dgl false]

/-- The two-layer `Model` class of the link-prediction notebook: `__init__`
builds two `dgl.nn.SAGEConv` submodules with mean aggregation; `forward`
slices, calls `conv1`, `F.relu`, slices, calls `conv2`, returns. -/
def modelLPClassStmt : PyStmt :=
  PyStmt.defClass false
    [PyStmt.defFun
      [PyStmt.libCall LibName.torch false, PyStmt.libCall LibName.dgl false,
        PyStmt.libCall LibName.dgl false, PyStmt.assignPure],
      PyStmt.defFun
      [PyStmt.assignPure, PyStmt.libCall LibName.dgl false,
        PyStmt.libCall LibName.torch false, PyStmt.assignPure,
        PyStmt.libCall LibName.dgl false, PyStmt.returnStmt]]

/-- The `DotPredictor` class: a single `forward` whose `with g.local_scope()`
block writes `ndata`, calls `apply_edges`, reads `edata` and returns. -/
def dotPredictorClassStmt : PyStmt :=
  PyStmt.defClass false
    [PyStmt.defFun
      [PyStmt.withBlock
        [PyStmt.storeWrite, PyStmt.libCall LibName.dgl false, PyStmt.storeRead,
          PyStmt.returnStmt]]]

/-- The `inference` function: under `torch.no_grad`, build a sampler and a
`NodeDataLoader`, accumulate per-batch model outputs in a Python list, and
return their concatenation. -/
def inferenceDefStmt : PyStmt :=
  PyStmt.defFun
    [PyStmt.withBlock
      [PyStmt.libCall LibName.torch false, PyStmt.libCall LibName.dgl false,
        PyStmt.libCall LibName.dgl false, PyStmt.assignPure,
        PyStmt.forRange [PyStmt.storeRead, PyStmt.repoCall, PyStmt.assignPure],
        PyStmt.libCall LibName.torch false, PyStmt.returnStmt]]

/-- The `evaluate` function: linear classifier and LBFGS construction, the
`compute_loss` and `closure` definitions, the 1000-iteration loop with the
convergence branch and its `break`, the no-grad accuracy block, and the
return of the accuracy pair. -/
def evaluateDefStmt : PyStmt :=
  PyStmt.defFun
    [PyStmt.libCall LibName.torch false, PyStmt.libCall LibName.torch false,
      PyStmt.defFun
      [PyStmt.libCall LibName.torch false, PyStmt.libCall LibName.torch false,
        PyStmt.returnStmt],
      PyStmt.defFun
      [PyStmt.repoCall, PyStmt.libCall LibName.torch false,
        PyStmt.libCall LibName.torch false, PyStmt.returnStmt],
      PyStmt.assignPure,
      PyStmt.forRange
      [PyStmt.libCall LibName.torch false,
        PyStmt.withBlock
        [PyStmt.repoCall,
          PyStmt.ifBranch [PyStmt.printCall, PyStmt.breakStmt]
            [PyStmt.assignPure]]],
      PyStmt.withBlock
      [PyStmt.libCall LibName.torch false, PyStmt.assignPure,
        PyStmt.libCall LibName.sklearnLib false,
        PyStmt.libCall LibName.sklearnLib false],
      PyStmt.returnStmt]

/-- The link-prediction training-loop cell: one epoch over the edge
dataloader under tqdm; per step the forward passes, the loss, the optimizer
triple, and every 500 steps the evaluation block whose inner branch updates
`best_accuracy` and overwrites `best_model_path` via `torch.save` — the one
file-writing statement of the repository. -/
def lpTrainingLoopStmts : List PyStmt :=
  [PyStmt.importLib LibName.tqdmLib, PyStmt.importLib LibName.sklearnLib,
    PyStmt.assignPure, PyStmt.assignPure,
    PyStmt.forRange
    [PyStmt.libCall LibName.tqdmLib false,
      PyStmt.withBlock
      [PyStmt.forRange
        [PyStmt.storeRead, PyStmt.repoCall, PyStmt.repoCall, PyStmt.repoCall,
          PyStmt.libCall LibName.torch false, PyStmt.libCall LibName.torch false,
          PyStmt.libCall LibName.torch false, PyStmt.libCall LibName.torch false,
          PyStmt.libCall LibName.torch false, PyStmt.libCall LibName.torch false,
          PyStmt.libCall LibName.tqdmLib false,
          PyStmt.ifBranch
          [PyStmt.libCall LibName.torch false, PyStmt.repoCall,
            PyStmt.repoCall, PyStmt.printCall,
            PyStmt.ifBranch
              [PyStmt.assignPure, PyStmt.libCall LibName.torch true] [],
            PyStmt.libCall LibName.torch false]
          []]]]]

/-- All statements of the link-prediction notebook, cell by cell. -/
def part001Code : List PyStmt :=
  [PyStmt.libCall LibName.matplotlibLib false]
  ++ datasetAcquisitionStmts
  ++ samplerDataloaderStmts
  ++ [PyStmt.libCall LibName.dgl false, PyStmt.printCall, PyStmt.printCall,
    PyStmt.printCall, PyStmt.printCall]
  ++ [PyStmt.importLib LibName.torch, PyStmt.importLib LibName.torch,
    PyStmt.importLib LibName.dgl, modelLPClassStmt, PyStmt.repoCall,
    PyStmt.libCall LibName.torch false]
  ++ [PyStmt.importLib LibName.dgl, dotPredictorClassStmt]
  ++ [inferenceDefStmt, PyStmt.importLib LibName.sklearnLib, evaluateDefStmt]
  ++ [PyStmt.repoCall, PyStmt.libCall LibName.torch false, PyStmt.repoCall,
    PyStmt.libCall LibName.torch false, PyStmt.libCall LibName.torch false]
  ++ lpTrainingLoopStmts

/-- Every statement of the repository's three notebooks. -/
def allRepoCode : List PyStmt := part000Code ++ l4Code ++ part001Code

/-- The five components the specification enumerates, as statement lists:
dataset acquisition, sampler and dataloader construction, model definition,
training loop, evaluation routine. -/
def repoComponents : List (List PyStmt) :=
  [datasetAcquisitionStmts, samplerDataloaderStmts, [modelLPClassStmt],
    lpTrainingLoopStmts, [evaluateDefStmt]]

/-! ## Layer structure of the model modules

The complete models the notebooks instantiate and train (`model = GCN(...)`,
`model = Model(...)`) are described by the list of graph-convolution layers
their forward pass runs, and every layer by the aggregation primitive it
invokes.  The repository's own `SAGEConv` performs its aggregation by the
one `g.update_all(fn.copy_u, fn.mean)` call; `GraphConv` and
`dgl.nn.SAGEConv` are library layers. -/

/-- The aggregation primitives invoked by the layers, all owned by dgl. -/
inductive AggPrim where
  | graphConvAgg
  | sageConvMeanAgg
  | updateAllCopyUMeanAgg
deriving DecidableEq

/-- The library that implements an aggregation primitive. -/
def aggProvider : AggPrim → LibName
  | AggPrim.graphConvAgg => LibName.dgl
  | AggPrim.sageConvMeanAgg => LibName.dgl
  | AggPrim.updateAllCopyUMeanAgg => LibName.dgl

/-- The kinds of graph-convolution layers the models stack. -/
inductive ConvLayerKind where
  | libGraphConv
  | libSAGEConvMean
  | repoSAGEConvStoch
deriving DecidableEq

/-- The aggregation primitives a layer's forward pass invokes. -/
def layerAggPrims : ConvLayerKind → List AggPrim
  | ConvLayerKind.libGraphConv => [AggPrim.graphConvAgg]
  | ConvLayerKind.libSAGEConvMean => [AggPrim.sageConvMeanAgg]
  | ConvLayerKind.repoSAGEConvStoch => [AggPrim.updateAllCopyUMeanAgg]

/-- A model module, described by its stacked convolution layers. -/
structure ModelModuleDesc where
  convLayers : List ConvLayerKind

/-- `GCN(in_feats, h_feats, num_classes)`: two `GraphConv` layers. -/
def gcnModelDesc : ModelModuleDesc := ⟨[ConvLayerKind.libGraphConv, ConvLayerKind.libGraphConv]⟩

/-- The `Model` of the message-passing notebook: two repository `SAGEConv`
layers. -/
def modelL4Desc : ModelModuleDesc :=
  ⟨[ConvLayerKind.repoSAGEConvStoch, ConvLayerKind.repoSAGEConvStoch]⟩

/-- The `Model` of the link-prediction notebook: two `dgl.nn.SAGEConv`
layers with mean aggregation. -/
def modelLPDesc : ModelModuleDesc :=
  ⟨[ConvLayerKind.libSAGEConvMean, ConvLayerKind.libSAGEConvMean]⟩

/-- The neural network models the notebooks instantiate and train. -/
def repoModelModules : List ModelModuleDesc := [gcnModelDesc, modelL4Desc, modelLPDesc]

/-- A call statement into the dgl library. -/
def isDglCall : PyStmt → Bool
  | PyStmt.libCall LibName.dgl _ => true
  | _ => false

/-! ## Theorems for the structural claims -/

set_option maxRecDepth 8000

/-- C1.  Every neural network model module the notebooks instantiate and
train (`GCN`, and the two `Model` classes) is a two-layer module; each layer
invokes exactly one aggregation primitive and that primitive is implemented
by the external dgl library.  Moreover, the repository's own convolution
classes implement no aggregation algorithm of their own: the stochastic
`SAGEConv` forward performs exactly one dgl call (the `update_all`
aggregation), and no repository convolution or model class body contains any
loop in which an aggregation could be computed. -/
theorem modelModules_two_layers_external_aggregation :
    (repoModelModules.all fun m =>
      decide (m.convLayers.length = 2) &&
        m.convLayers.all fun c =>
          decide ((layerAggPrims c).length = 1) &&
            (layerAggPrims c).all fun p => decide (aggProvider p = LibName.dgl))
      = true
    ∧ listCount isDglCall sageConvStochForwardBody = 1
    ∧ listCount isDglCall sageConvFullForwardBody = 1
    ∧ listCount isDglCall sageConvBothForwardBody = 1
    ∧ stmtAny isLoopStmt sageConvStochClassStmt = false
    ∧ stmtAny isLoopStmt sageConvFullClassStmt = false
    ∧ stmtAny isLoopStmt sageConvBothClassStmt = false
    ∧ stmtAny isLoopStmt gcnClassStmt = false
    ∧ stmtAny isLoopStmt modelL4ClassStmt = false
    ∧ stmtAny isLoopStmt modelLPClassStmt = false := by
  decide

/-- C3, counterexample.  The claim states that every component is a direct
call into library functionality with no independent control logic added by
the repository; but the evaluation routine `evaluate` — one of the
enumerated components — contains repository-authored control flow (the
convergence branch with its early `break` inside the LBFGS loop), so the
universal statement is false. -/
theorem components_no_control_logic_refuted :
    (repoComponents.all fun c => !(listAny isBranchOrBreak c)) = false
    ∧ listAny isBranchOrBreak [evaluateDefStmt] = true := by
  decide

/-- C3, amended.  Every one of the five components is free of
repository-authored buffering of failures, retry, and failure handling:
no component contains a try/except, a raise, or a custom exception class.
(The components do contain simple control flow: fixed-count loops, the
convergence early-exit of `evaluate`, and the periodic-evaluation and
best-model branches of the training loop.) -/
theorem components_no_failure_handling :
    (repoComponents.all fun c => !(listAny isErrorHandling c)) = true := by
  decide

/-- C8.  No statement anywhere in the three notebooks catches an exception,
raises one, or defines a custom exception class, so a library failure
propagates to the caller exactly as raised. -/
theorem no_exception_handling_anywhere :
    listAny isErrorHandling allRepoCode = false := by
  decide

/-- C9, counterexample.  The claim states that no operation in the
repository produces an output file; but the link-prediction training loop
contains a file-writing statement (the `torch.save` of the model state dict
to `best_model_path`), so some repository statement does produce an output
file. -/
theorem no_output_file_refuted :
    listAny isFileWrite allRepoCode = true
    ∧ listAny isFileWrite lpTrainingLoopStmts = true := by
  decide

/-- C9, amended.  The repository defines no file format of its own: exactly
one statement in the three notebooks writes a file, that statement lives in
the link-prediction training loop, and it is a call into the external torch
library (`torch.save`), whose serialization format belongs to the library. -/
theorem single_file_write_is_torch_save :
    listCount isFileWrite allRepoCode = 1
    ∧ listCount isFileWrite lpTrainingLoopStmts = 1
    ∧ listAny isNonTorchFileWrite allRepoCode = false := by
  decide

/-! ## Theorems for the message-passing and prediction modules -/

/-- Reading a key just written returns the written feature. -/
theorem storeGet_set_same (s : Store) (k : FKey) (f : Feat) :
    storeGet (storeSet s k f) k = f := by
  simp [storeGet, storeSet]

/-- The message list of `fn.copy_u` is the source feature mapped over the
in-edges of the destination node. -/
theorem inMessages_eq_filter_map (edges : List (ℕ × ℕ)) (hsrc : Feat) (v : ℕ) :
    inMessages edges hsrc v
      = (edges.filter (fun e => decide (e.2 = v))).map (fun e => hsrc e.1) := by
  induction edges with
  | nil => rfl
  | cons e rest ih =>
    by_cases h : e.2 = v
    · simp [inMessages, List.filterMap_cons, List.filter_cons, h] at ih ⊢
      exact ih
    · simp [inMessages, List.filterMap_cons, List.filter_cons, h] at ih ⊢
      exact ih

/-- The `fn.mean` aggregation, characterised arithmetically: the in-degree
normalised sum over the in-edges, and zero for nodes with no in-edge. -/
theorem updateAll_mean_char (edges : List (ℕ × ℕ)) (hsrc : Feat) (v j : ℕ) :
    updateAllCopyUMean edges hsrc v j
      = if inDeg edges v = 0 then 0
        else inSum edges hsrc v j / (inDeg edges v : ℚ) := by
  unfold updateAllCopyUMean meanVec inDeg inSum
  rw [inMessages_eq_filter_map, List.map_map]
  by_cases h0 : (edges.filter (fun e => decide (e.2 = v))).length = 0
  · rw [List.length_eq_zero] at h0
    simp [h0]
  · simp only [List.length_map, if_neg h0]
    rfl

/-- C2.  The stochastic `SAGEConv.forward(g, (h_src, h_dst))` returns the
linear module applied to the concatenation of `h_dst` with the neighbour
feature `h_N`, where `h_N` at a destination node is the arithmetic mean of
`h_src` over the edges into that node and zero for nodes with no in-edge;
the persistent stores are untouched. -/
theorem sageconv_stoch_forward_mean_aggregation (c : SAGEConvM) (g : MFG)
    (st : MFGData) (hsrc hdst : Feat) :
    c.forwardStoch g st (hsrc, hdst)
      = ((fun v => c.linear.applyLin (vconcat c.inFeat (hdst v)
          (fun j => if inDeg g.edges v = 0 then 0
            else inSum g.edges hsrc v j / (inDeg g.edges v : ℚ)))), st) := by
  unfold SAGEConvM.forwardStoch
  simp only [storeGet_set_same]
  have hagg : updateAllCopyUMean g.edges hsrc
      = fun v j => if inDeg g.edges v = 0 then 0
        else inSum g.edges hsrc v j / (inDeg g.edges v : ℚ) := by
    funext v j
    exact updateAll_mean_char g.edges hsrc v j
  rw [hagg]

/-- C4.  On a homogeneous full graph with a single-tensor input,
`SAGEConvForBoth.forward` computes exactly what the full-graph-only
`SAGEConv.forward` computes, with the same linear-layer weights (the same
module state `c` on both sides). -/
theorem sageconv_both_single_equals_full (c : SAGEConvM) (g : HGraph)
    (st : HData) (h : Feat) :
    c.forwardBoth g st (TensorOrPair.single h) = c.forwardFull g st h := rfl

/-- C5.  `DotPredictor.forward` and the stochastic `SAGEConv.forward` leave
the graph's persistent feature dictionaries unchanged: every feature write
they perform happens inside `g.local_scope()`, so the store component of the
result is the input store. -/
theorem forward_preserves_persistent_stores (dim : ℕ) (g : HGraph)
    (st : HData) (h : Feat) (c : SAGEConvM) (g2 : MFG) (st2 : MFGData)
    (hp : Feat × Feat) :
    (dotPredictorForward dim g st h).2 = st
      ∧ (c.forwardStoch g2 st2 hp).2 = st2 :=
  ⟨rfl, rfl⟩

/-- C6.  `evaluate` fits one linear classifier from the embeddings and
labels of the training nodes alone (the fitted parameters are a function of
`train_nids.map emb` and `train_nids.map label` only, beside the externally
owned optimizer behaviour, loss primitive and initialisation), and returns
the pair of sklearn accuracies of that classifier's argmax predictions over
the validation and the test node lists. -/
theorem evaluate_is_linear_probe {α : Type}
    (step : LinearMod × α → (LinearMod → ℚ) → LinearMod × α)
    (ce : List Vecq → List ℕ → ℚ) (init : LinearMod × α)
    (emb : Feat) (label : ℕ → ℕ) (nclass : ℕ) (tr va te : List ℕ) :
    evaluateProbe step ce init emb label nclass tr va te
      = (accuracyScore (va.map label)
          (va.map (fun i => argmaxIdx nclass
            ((fitClassifier step ce init (tr.map emb) (tr.map label)).applyLin
              (emb i)))),
        accuracyScore (te.map label)
          (te.map (fun i => argmaxIdx nclass
            ((fitClassifier step ce init (tr.map emb) (tr.map label)).applyLin
              (emb i))))) := by
  unfold evaluateProbe fitClassifier
  simp only [List.map_map]
  rfl

/-! ## Theorems for the node-classification training loop -/

/-- Within one epoch of `train`, the optimizer is touched exactly by the
`zero_grad`, `backward`, `step` sequence, in that order. -/
theorem trainEpochEvents_optim (e : ℕ) (best acc : ℚ × ℚ) :
    (trainEpochEvents e best acc).filter isOptimEvent
      = [TEvent.zeroGrad, TEvent.backwardPass, TEvent.optimStep] := by
  unfold trainEpochEvents
  by_cases h1 : best.1 < acc.1 <;> by_cases h2 : e % 5 = 0 <;>
    simp [h1, h2, List.filter_append, isOptimEvent, List.filter]

/-- Within one epoch of `train`, every loss computation selects the
`train_mask` rows. -/
theorem trainEpochEvents_loss_mask (e : ℕ) (best acc : ℚ × ℚ) :
    (trainEpochEvents e best acc).all lossOnlyTrainMask = true := by
  unfold trainEpochEvents
  by_cases h1 : best.1 < acc.1 <;> by_cases h2 : e % 5 = 0 <;>
    simp [h1, h2, List.all_append, lossOnlyTrainMask, List.all]

/-- Over any epoch list, the optimizer events of the emitted trace are one
`zero_grad` / `backward` / `step` triple per epoch. -/
theorem trainRunGo_optim (accs : ℕ → ℚ × ℚ) :
    ∀ (l : List ℕ) (best : ℚ × ℚ),
      ((trainRunGo accs l best).2.filter isOptimEvent
          = (List.replicate l.length
              [TEvent.zeroGrad, TEvent.backwardPass, TEvent.optimStep]).flatten)
        ∧ (trainRunGo accs l best).2.all lossOnlyTrainMask = true := by
  intro l
  induction l with
  | nil => intro best; constructor <;> rfl
  | cons e rest ih =>
    intro best
    unfold trainRunGo
    constructor
    · simp only [List.filter_append, trainEpochEvents_optim,
        (ih (trainStepState best (accs e))).1, List.length_cons,
        List.replicate_succ, List.flatten_cons]
    · simp only [List.all_append, trainEpochEvents_loss_mask,
        (ih (trainStepState best (accs e))).2, Bool.and_self]

/-- C7.  For every run of `train(g, model)` — whatever values the external
forward pass, loss and optimizer produce — the loop runs exactly 100 epochs:
the optimizer events of the whole trace are exactly 100 repetitions of the
`zero_grad`, `backward`, `step` triple in that order, and every
cross-entropy loss computation in the trace selects only the rows where
`train_mask` is true. -/
theorem train_100_epochs_masked_loss_optimizer_order (accs : ℕ → ℚ × ℚ) :
    ((trainRun accs).2.filter isOptimEvent
        = (List.replicate 100
            [TEvent.zeroGrad, TEvent.backwardPass, TEvent.optimStep]).flatten)
      ∧ (trainRun accs).2.all lossOnlyTrainMask = true := by
  have h := trainRunGo_optim accs (List.range 100) (0, 0)
  simpa [trainRun, List.length_range] using h

/-! ## Theorems for the best-accuracy bookkeeping -/

/-- The conditional update of the loops is a maximum. -/
theorem ite_lt_eq_max (b v : ℚ) : (if b < v then v else b) = max b v := by
  by_cases h : b < v
  · rw [if_pos h, max_eq_right h.le]
  · rw [if_neg h, max_eq_left (le_of_not_lt h)]

/-- A fold of `max` never drops below its initial value. -/
theorem le_foldl_max_init (l : List ℚ) : ∀ b : ℚ, b ≤ l.foldl max b := by
  induction l with
  | nil => intro b; exact le_refl b
  | cons a rest ih =>
    intro b
    exact le_trans (le_max_left b a) (ih (max b a))

/-- A fold of `max` is its initial value or an element of the list. -/
theorem foldl_max_eq_or_mem (l : List ℚ) :
    ∀ b : ℚ, l.foldl max b = b ∨ l.foldl max b ∈ l := by
  induction l with
  | nil => intro b; exact Or.inl rfl
  | cons a rest ih =>
    intro b
    rcases ih (max b a) with h | h
    · rcases le_total a b with hab | hab
      · exact Or.inl (by rw [List.foldl_cons, h, max_eq_left hab])
      · exact Or.inr (by rw [List.foldl_cons, h, max_eq_right hab]; exact List.mem_cons_self a rest)
    · exact Or.inr (List.mem_cons_of_mem a h)

/-- A fold of `max` is below `v` exactly when the initial value and every
list element are. -/
theorem foldl_max_lt_iff (l : List ℚ) :
    ∀ b v : ℚ, l.foldl max b < v ↔ b < v ∧ ∀ x ∈ l, x < v := by
  induction l with
  | nil => intro b v; simp
  | cons a rest ih =>
    intro b v
    rw [List.foldl_cons, ih, max_lt_iff, List.forall_mem_cons, and_assoc]

/-- Filtering a mapped list filters the preimages. -/
theorem filterOverMap (p : ℕ → Bool) (f : ℕ → ℕ) (l : List ℕ) :
    (l.map f).filter p = (l.filter (fun x => p (f x))).map f := by
  induction l with
  | nil => rfl
  | cons a r ih => by_cases h : p (f a) <;> simp [h, ih]

/-- The running `best_accuracy` of the checkpointing loop is the maximum of
its initial value and the accuracies seen. -/
theorem lpGo_fst (accs : List ℚ) :
    ∀ (k : ℕ) (b : ℚ) (s : List ℕ), (lpGo accs k b s).1 = accs.foldl max b := by
  induction accs with
  | nil => intro k b s; rfl
  | cons v rest ih =>
    intro k b s
    by_cases h : b < v
    · rw [lpGo, if_pos h, ih, List.foldl_cons, max_eq_right h.le]
    · rw [lpGo, if_neg h, ih, List.foldl_cons, max_eq_left (le_of_not_lt h)]

/-- Shifting indices by one inside the offset map. -/
theorem mapShiftSucc (k : ℕ) (F : List ℕ) :
    F.map (fun i => k + 1 + i) = F.map ((fun i => k + i) ∘ Nat.succ) := by
  apply List.map_congr_left
  intro i _
  simp only [Function.comp_apply]
  omega

/-- The steps recorded as having saved the model are exactly the positions
whose accuracy strictly exceeds the fold of `max` over the initial value and
all earlier accuracies. -/
theorem lpGo_snd (accs : List ℚ) :
    ∀ (k : ℕ) (b : ℚ) (s : List ℕ),
      (lpGo accs k b s).2
        = s ++ ((List.range accs.length).filter
            (fun i => decide ((accs.take i).foldl max b < accs.getD i 0))).map
            (fun i => k + i) := by
  induction accs with
  | nil => intro k b s; simp [lpGo]
  | cons v rest ih =>
    intro k b s
    rw [List.length_cons, List.range_succ_eq_map, List.filter_cons,
      filterOverMap]
    simp only [List.take_zero, List.foldl_nil, List.getD_cons_zero,
      List.take_succ_cons, List.getD_cons_succ, List.foldl_cons]
    by_cases h : b < v
    · rw [lpGo, if_pos h, ih]
      simp only [max_eq_right h.le, decide_eq_true_eq, if_pos h,
        List.map_cons, Nat.add_zero, List.map_map]
      rw [mapShiftSucc, List.append_assoc]
      rfl
    · rw [lpGo, if_neg h, ih]
      simp only [max_eq_left (le_of_not_lt h), decide_eq_true_eq, if_neg h,
        List.map_map]
      rw [mapShiftSucc]

/-- The running `best_val_acc` of `train` is the fold of `max` over its
initial value and the validation accuracies seen. -/
theorem trainFold_fst (accs : List (ℚ × ℚ)) :
    ∀ b t : ℚ,
      (List.foldl trainStepState (b, t) accs).1 = (accs.map Prod.fst).foldl max b := by
  induction accs with
  | nil => intro b t; rfl
  | cons hd rest ih =>
    intro b t
    simp only [List.foldl_cons, List.map_cons]
    by_cases h : b < hd.1
    · have hstep : trainStepState (b, t) hd = hd := by
        simp [trainStepState, h]
      rw [hstep, max_eq_right h.le]
      have := ih hd.1 hd.2
      simpa using this
    · have hstep : trainStepState (b, t) hd = (b, t) := by
        simp [trainStepState, h]
      rw [hstep, max_eq_left (le_of_not_lt h), ih b t]

/-- The final `best_test_acc` of `train`: untouched when no validation
accuracy ever exceeded the initial best, and otherwise the test accuracy
paired with the first epoch whose validation accuracy reaches the overall
maximum. -/
theorem trainFold_snd (accs : List (ℚ × ℚ)) :
    ∀ b t : ℚ,
      (List.foldl trainStepState (b, t) accs).2
        = if (accs.map Prod.fst).foldl max b ≤ b then t
          else ((accs.find? (fun p =>
              decide ((accs.map Prod.fst).foldl max b ≤ p.1))).map
            Prod.snd).getD t := by
  induction accs with
  | nil => intro b t; simp
  | cons hd rest ih =>
    obtain ⟨v, w⟩ := hd
    intro b t
    simp only [List.foldl_cons, List.map_cons]
    by_cases h : b < v
    · have hstep : trainStepState (b, t) (v, w) = (v, w) := by
        simp [trainStepState, h]
      rw [hstep, ih v w]
      simp only [max_eq_right h.le]
      have hvM : v ≤ (rest.map Prod.fst).foldl max v := le_foldl_max_init _ v
      have hMb : ¬ ((rest.map Prod.fst).foldl max v ≤ b) := fun hc =>
        absurd (lt_of_lt_of_le h (le_trans hvM hc)) (lt_irrefl b)
      rw [if_neg hMb]
      by_cases hMv : (rest.map Prod.fst).foldl max v ≤ v
      · rw [if_pos hMv, List.find?_cons_of_pos _ (by simpa using hMv)]
        simp
      · rw [if_neg hMv, List.find?_cons_of_neg _ (by simpa using hMv)]
        have hmem : (rest.map Prod.fst).foldl max v ∈ rest.map Prod.fst := by
          rcases foldl_max_eq_or_mem (rest.map Prod.fst) v with he | hm
          · exact absurd he.le hMv
          · exact hm
        obtain ⟨p0, hp0mem, hp0⟩ := List.mem_map.mp hmem
        have hsome : (rest.find? (fun p =>
            decide ((rest.map Prod.fst).foldl max v ≤ p.1))).isSome := by
          rw [List.find?_isSome]
          exact ⟨p0, hp0mem, by simp [hp0]⟩
        obtain ⟨y, hy⟩ := Option.isSome_iff_exists.mp hsome
        rw [hy]
        simp
    · have hstep : trainStepState (b, t) (v, w) = (b, t) := by
        simp [trainStepState, h]
      rw [hstep, ih b t]
      simp only [max_eq_left (le_of_not_lt h)]
      by_cases hMb : (rest.map Prod.fst).foldl max b ≤ b
      · rw [if_pos hMb, if_pos hMb]
      · rw [if_neg hMb, if_neg hMb,
          List.find?_cons_of_neg _ (by
            simp only [decide_eq_true_eq]
            intro hc
            exact hMb (le_trans hc (le_of_not_lt h)))]

/-- The state of `trainRun` is the fold of the per-epoch update over the
listed epochs' accuracies. -/
theorem trainRunGo_fst_fold (accs : ℕ → ℚ × ℚ) :
    ∀ (l : List ℕ) (best : ℚ × ℚ),
      (trainRunGo accs l best).1 = List.foldl trainStepState best (l.map accs) := by
  intro l
  induction l with
  | nil => intro best; rfl
  | cons e rest ih =>
    intro best
    rw [trainRunGo, List.map_cons, List.foldl_cons]
    exact ih (trainStepState best (accs e))

/-- C10, counterexample.  The claim says `best_test_acc` equals the test
accuracy of the first epoch attaining the maximum validation accuracy.  Run
`train`'s bookkeeping on a single epoch with validation accuracy `0` and
test accuracy `1`: the maximum validation accuracy computed is `0` (it is
computed, and no computed one is larger), the first (only) epoch attains it
and has test accuracy `1`, yet the strict `best_val_acc < val_acc` guard
never fires, so the code leaves `best_test_acc = 0 ≠ 1`. -/
theorem best_test_not_first_max_test_refuted :
    (List.foldl trainStepState (0, 0) [((0 : ℚ), (1 : ℚ))]).2 = 0
    ∧ (0 : ℚ) ∈ [((0 : ℚ), (1 : ℚ))].map Prod.fst
    ∧ (∀ x ∈ [((0 : ℚ), (1 : ℚ))].map Prod.fst, x ≤ 0)
    ∧ (([((0 : ℚ), (1 : ℚ))].find? (fun p => decide (p.1 = 0))).map
        Prod.snd).getD 0 = 1
    ∧ ((0 : ℚ) ≠ 1) := by
  decide

/-- C10, amended.  In the link-prediction loop, `best_accuracy` is
non-decreasing and always equals the fold of `max` over the initial value
`0` and the accuracies computed so far; the model file is overwritten at
exactly the steps whose validation accuracy strictly exceeds the maximum of
`0` and every previously computed accuracy (equivalently: is positive and
strictly exceeds every previously computed one).  In `train`, the final
best pair is the fold of `max` over `0` and the validation accuracies, and
`best_test_acc` is the test accuracy of the first epoch attaining that
maximum when the maximum is positive, and the initial `0` otherwise. -/
theorem checkpointing_and_best_tracking_amended :
    (∀ (accs : List ℚ) (v : ℚ), (lpFold accs).1 ≤ (lpFold (accs ++ [v])).1)
    ∧ (∀ accs : List ℚ, (lpFold accs).1 = accs.foldl max 0)
    ∧ (∀ accs : List ℚ, (lpFold accs).2
        = (List.range accs.length).filter
            (fun i => decide ((accs.take i).foldl max 0 < accs.getD i 0)))
    ∧ (∀ (accs : List ℚ) (i : ℕ),
        ((accs.take i).foldl max 0 < accs.getD i 0
          ↔ 0 < accs.getD i 0 ∧ ∀ w ∈ accs.take i, w < accs.getD i 0))
    ∧ (∀ paccs : List (ℚ × ℚ),
        List.foldl trainStepState (0, 0) paccs
          = ((paccs.map Prod.fst).foldl max 0,
            if (paccs.map Prod.fst).foldl max 0 ≤ 0 then 0
            else ((paccs.find? (fun p =>
                decide ((paccs.map Prod.fst).foldl max 0 ≤ p.1))).map
              Prod.snd).getD 0))
    ∧ (∀ accs : ℕ → ℚ × ℚ,
        (trainRun accs).1
          = List.foldl trainStepState (0, 0) ((List.range 100).map accs)) := by
  refine ⟨?_, ?_, ?_, ?_, ?_, ?_⟩
  · intro accs v
    unfold lpFold
    rw [lpGo_fst, lpGo_fst, List.foldl_append, List.foldl_cons, List.foldl_nil]
    exact le_max_left _ v
  · intro accs
    unfold lpFold
    rw [lpGo_fst]
  · intro accs
    unfold lpFold
    rw [lpGo_snd]
    simp
  · intro accs i
    exact foldl_max_lt_iff (accs.take i) 0 (accs.getD i 0)
  · intro paccs
    exact Prod.ext (trainFold_fst paccs 0 0) (trainFold_snd paccs 0 0)
  · intro accs
    exact trainRunGo_fst_fold accs (List.range 100) (0, 0)

/-- Concrete instance of the amended checkpointing theorem: on the accuracy
sequence `1, 0, 1` the file is saved exactly at step 0, and appending a
step never lowers the best accuracy. -/
theorem checkpointing_and_best_tracking_amended_witness :
    (lpFold [(1 : ℚ), 0, 1]).2 = [0]
    ∧ (lpFold [(1 : ℚ)]).1 ≤ (lpFold [(1 : ℚ), 0]).1 := by
  have h := checkpointing_and_best_tracking_amended
  constructor
  · rw [h.2.2.1 [(1 : ℚ), 0, 1]]
    decide
  · exact h.1 [(1 : ℚ)] 0
